import Mathlib

/-!
Verification of the subprocess-driven download orchestrator of
`src/youtube_downloader.py` (the `YouTubeDownloader` application).

The pure logic of the program — URL validation, format-string construction,
progress-line parsing, completion signaling and the single-flight download
guard — is embedded below as executable Lean definitions, translated
function by function from the Python source.  External effects (the spawned
`yt-dlp` process, the Tk widgets) are represented by explicit data: the
process contributes its output lines and its exit code, and every callback
posted to the UI thread becomes an element of an explicit call trace.
-/

namespace YoutubeDownloader

/-! ## Format selector — `_get_format_string` (lines 493–505)

`quality.replace('p', '')` in Python removes every occurrence of the
character `p`; `stripP` is that operation. -/

/-- Model of Python `quality.replace('p', '')`: remove all `p` characters. -/
def stripP (q : String) : String :=
  String.mk (q.data.filter fun c => c ≠ 'p')

/-- The method `_get_format_string` from the source: maps the user's quality and
container selection to a yt-dlp format-selection expression. -/
def _get_format_string (quality format_ext : String) : String :=
  if quality = "best" then
    "best[ext=" ++ format_ext ++ "]/best"
  else if quality = "worst" then
    "worst[ext=" ++ format_ext ++ "]/worst"
  else
    let height := stripP quality
    "best[height<=" ++ height ++ "][ext=" ++ format_ext ++ "]/best[height<=" ++ height ++ "]/best"

/-- The container formats offered by the format combo box (line 199). -/
def containerFormats : List String := ["mp4", "webm", "mkv", "mp3", "m4a"]

/-- The resolution qualities offered by the quality combo box (line 192),
as bare numbers (the combo box shows them with a trailing `p`). -/
def resolutionHeights : List Nat := [144, 240, 360, 480, 720]

/-! ## View-count formatter — `_get_video_info_thread` (lines 300–309) -/

/-- Renders `n / d` to one decimal place, as Python `f"{n/d:.1f}"` does.
The float division and formatting are modelled exactly over the rationals,
with ties rounded to even (the rounding mode of `%.1f`); artifacts of the
double-precision intermediate value are not modelled. -/
def oneDecimal (n d : Nat) : String :=
  let q := n * 10 / d
  let r := n * 10 % d
  let t := if 2 * r > d then q + 1 else if 2 * r = d ∧ q % 2 = 1 then q + 1 else q
  toString (t / 10) ++ "." ++ toString (t % 10)

/-- The view-count formatting block of `_get_video_info_thread`
(lines 300–309), including the outer `if view_count:` truthiness guard
which sends a zero (or missing) view count to `"Unknown views"`. -/
def formatViewCount (view_count : Nat) : String :=
  if view_count ≠ 0 then
    if view_count ≥ 1000000 then oneDecimal view_count 1000000 ++ "M views"
    else if view_count ≥ 1000 then oneDecimal view_count 1000 ++ "K views"
    else toString view_count ++ " views"
  else "Unknown views"

/-! ## Progress-line parser — `_run_yt_dlp_download` (lines 80–97)

Each output line is `strip`ped and scanned with
`re.search(r"(\d{1,3}\.\d)%", line)` and, failing that,
`re.search(r"(\d{1,3})%", line)`.  `re.search` tries start positions left
to right; at a position the bounded repeat `\d{1,3}` is greedy, trying
three digits, then two, then one.  The matched group is turned into a
number with `float(...)`, modelled exactly over the rationals.  `\d` is
modelled as the ASCII digits. -/

/-- Whitespace test of Python `str.strip` (ASCII whitespace). -/
def isSpaceChar (c : Char) : Bool :=
  c = ' ' ∨ c = '\t' ∨ c = '\n' ∨ c = '\r' ∨ c = '\x0b' ∨ c = '\x0c'

/-- Model of Python `str.strip()`: drop leading and trailing whitespace. -/
def strip (s : String) : String :=
  String.mk ((((s.data.dropWhile isSpaceChar).reverse).dropWhile isSpaceChar).reverse)

/-- ASCII digit test, modelling `\d` of the progress patterns. -/
def isDigitChar (c : Char) : Bool := 48 ≤ c.toNat && c.toNat ≤ 57

/-- Numeric value of a digit character. -/
def charVal (c : Char) : Nat := c.toNat - 48

/-- Value of a decimal digit string, as `float` reads its integer part. -/
def digitsVal : List Char → Nat
  | [] => 0
  | c :: r => charVal c * 10 ^ r.length + digitsVal r

/-- One attempt of the decimal pattern `(\d{1,3}\.\d)%` at the current
position with exactly `k` digits before the point: `k` digits, a point,
one digit, then a percent sign. -/
def tryDec (k : Nat) (l : List Char) : Option ℚ :=
  let ds := l.take k
  if ds.length = k ∧ ds.all isDigitChar = true then
    match l.drop k with
    | c1 :: d :: c2 :: _ =>
      if c1 = '.' ∧ isDigitChar d = true ∧ c2 = '%' then
        some (mkRat (digitsVal ds * 10 + charVal d) 10)
      else none
    | _ => none
  else none

/-- The decimal pattern at one position: greedy `\d{1,3}`, so three digits
are tried first, then two, then one. -/
def decAt (l : List Char) : Option ℚ :=
  match tryDec 3 l with
  | some v => some v
  | none =>
    match tryDec 2 l with
    | some v => some v
    | none => tryDec 1 l

/-- Search as `re.search` does for the decimal pattern: start positions left to right. -/
def searchDec : List Char → Option ℚ
  | [] => none
  | c :: t =>
    match decAt (c :: t) with
    | some v => some v
    | none => searchDec t

/-- One attempt of the integer pattern `(\d{1,3})%` at the current
position with exactly `k` digits. -/
def tryInt (k : Nat) (l : List Char) : Option ℚ :=
  let ds := l.take k
  if ds.length = k ∧ ds.all isDigitChar = true then
    match l.drop k with
    | c1 :: _ => if c1 = '%' then some (digitsVal ds : ℚ) else none
    | _ => none
  else none

/-- The integer pattern at one position, greedy `\d{1,3}`. -/
def intAt (l : List Char) : Option ℚ :=
  match tryInt 3 l with
  | some v => some v
  | none =>
    match tryInt 2 l with
    | some v => some v
    | none => tryInt 1 l

/-- Search as `re.search` does for the integer pattern: start positions left to right. -/
def searchInt : List Char → Option ℚ
  | [] => none
  | c :: t =>
    match intAt (c :: t) with
    | some v => some v
    | none => searchInt t

/-- The per-line percentage extraction of `_run_yt_dlp_download`: the
decimal-point pattern is searched first, the integer pattern only when
the first found nothing. -/
def parsePercent (l : List Char) : Option ℚ :=
  match searchDec l with
  | some v => some v
  | none => searchInt l

/-- One iteration of the output loop of `_run_yt_dlp_download`: the line
is stripped, and the progress callback receives the parsed percent (or
the sentinel `-1`) together with the stripped line. -/
def lineEvent (rawLine : String) : ℚ × String :=
  let line := strip rawLine
  match parsePercent line.data with
  | some p => (p, line)
  | none => (-1, line)

/-- The sequence of progress-callback invocations produced by the output
loop of `_run_yt_dlp_download`, one per output line, in line order. -/
def runnerEvents : List String → List (ℚ × String)
  | [] => []
  | l :: ls => lineEvent l :: runnerEvents ls

/-- The function `_run_yt_dlp_download` (lines 59–101), as a function of what the
spawned process contributes: its output lines and its exit code.  The
first component is the progress-callback trace; the second is the
message of the `RuntimeError` raised after `p.wait()` when the exit code
is non-zero (`none` when the call returns normally). -/
def _run_yt_dlp_download (outLines : List String) (returncode : Int) :
    List (ℚ × String) × Option String :=
  (runnerEvents outLines,
    if returncode ≠ 0 then some ("yt-dlp exited with " ++ toString returncode) else none)

/-! ## URL validator — `is_valid_youtube_url` (lines 333–339)

The Python method matches the compiled pattern

    (https?://)?(www\.)?(youtube|youtu|youtube-nocookie)\.(com|be)/
    (watch\?v=|embed/|v/|.+\?v=)?([^&=%\?]{11})

against the *start* of the string with `re.match` (no end anchor) and
returns whether a match exists.  The embedding computes, stage by stage,
the set of remainders reachable after each sub-pattern; the whole pattern
matches iff some remainder reachable after the `/` and the optional
positional group starts with eleven identifier characters.  Existence of
a match is all `is_valid_youtube_url` observes, so the union over the
backtracking alternatives is a faithful model of the backtracking
matcher. -/

/-- Remainders after a literal sub-pattern: the literal must be the next
characters. -/
def litRem (pat l : List Char) : List (List Char) :=
  if pat.isPrefixOf l then [l.drop pat.length] else []

/-- Remainders after `X+` for a character class `p`: one or more leading
characters of class `p` are consumed. -/
def plusSuffixes (p : Char → Bool) : List Char → List (List Char)
  | [] => []
  | c :: t => if p c then t :: plusSuffixes p t else []

/-- Remainder after `X{n}` for a character class `p`: exactly `n` leading
characters of class `p` are consumed. -/
def repMatch (p : Char → Bool) : Nat → List Char → Option (List Char)
  | 0, l => some l
  | _ + 1, [] => none
  | n + 1, c :: t => if p c then repMatch p n t else none

/-- The identifier character class `[^&=%\?]` of the video-id group. -/
def idChar (c : Char) : Bool :=
  ¬ (c = '&' ∨ c = '=' ∨ c = '%' ∨ c = '?')

/-- The class matched by `.` (any character but a newline). -/
def notNl (c : Char) : Bool := c ≠ '\n'

/-- Remainders after the optional scheme `(https?://)?`. -/
def schemeRem (l : List Char) : List (List Char) :=
  litRem "https://".data l ++ litRem "http://".data l ++ [l]

/-- Remainders after the optional `(www\.)?`. -/
def wwwRem (l : List Char) : List (List Char) :=
  litRem "www.".data l ++ [l]

/-- Remainders after the host alternation `(youtube|youtu|youtube-nocookie)`. -/
def hostRem (l : List Char) : List (List Char) :=
  litRem "youtube".data l ++ litRem "youtu".data l ++ litRem "youtube-nocookie".data l

/-- Remainders after the literal dot `\.`. -/
def dotRem (l : List Char) : List (List Char) :=
  litRem ".".data l

/-- Remainders after the top-level-domain alternation `(com|be)`. -/
def tldRem (l : List Char) : List (List Char) :=
  litRem "com".data l ++ litRem "be".data l

/-- Remainders after the literal slash `/`. -/
def slashRem (l : List Char) : List (List Char) :=
  litRem "/".data l

/-- Remainders after the optional positional group
`(watch\?v=|embed/|v/|.+\?v=)?`. -/
def posFormRem (l : List Char) : List (List Char) :=
  litRem "watch?v=".data l ++ litRem "embed/".data l ++ litRem "v/".data l
    ++ (plusSuffixes notNl l).flatMap (litRem "?v=".data) ++ [l]

/-- All remainders reachable just before the video-id group. -/
def ytCandidates (l : List Char) : List (List Char) :=
  ((((((schemeRem l).flatMap wwwRem).flatMap hostRem).flatMap dotRem).flatMap
      tldRem).flatMap slashRem).flatMap posFormRem

/-- The method `is_valid_youtube_url` from the source: the pattern matches at the
start of the string iff some reachable remainder begins with eleven
identifier characters. -/
def is_valid_youtube_url (url : String) : Bool :=
  (ytCandidates url.data).any fun s => (repMatch idChar 11 s).isSome

/-- Holds (is `true`) iff the string begins with an eleven-character run drawn from
the identifier alphabet `[^&=%\?]`. -/
def startsWithIdRun (t : List Char) : Bool :=
  decide ((t.take 11).length = 11) && (t.take 11).all idChar

/-- Holds (is `true`) iff the string contains, anywhere, an eleven-character run
drawn from the identifier alphabet `[^&=%\?]`. -/
def containsIdRun : List Char → Bool
  | [] => false
  | c :: t => startsWithIdRun (c :: t) || containsIdRun t

/-! ## Download orchestrator — `start_download`, `_download_thread`,
`_update_progress`, `_download_complete` (lines 382–543)

The mutable state the core maintains on the foreground thread is the
single-flight flag `is_downloading`, the progress variable and the
status label text; widget-only effects (button text, message boxes) are
not part of the state.  Callbacks posted to the foreground thread with
`root.after` become elements of an explicit trace that is folded over
the state. -/

/-- The foreground-owned state touched by the download orchestrator. -/
structure AppState where
  is_downloading : Bool
  progress : ℚ
  status : String
deriving DecidableEq

/-- The method `_update_progress` (lines 525–529): the progress variable is set only
for a non-negative percent; the status text is always set. -/
def _update_progress (st : AppState) (percent : ℚ) (status : String) : AppState :=
  if 0 ≤ percent then { st with progress := percent, status := status }
  else { st with status := status }

/-- The method `_download_complete` (lines 531–543): reset the single-flight flag,
set the progress variable to 100 on success and 0 on failure, restore
the status text. -/
def _download_complete (st : AppState) (success : Bool) (message : String) : AppState :=
  let st1 := { st with is_downloading := false }
  let st2 := if success then { st1 with progress := 100 } else { st1 with progress := 0 }
  { st2 with status := "Ready to download" }

/-- The possible outcomes of a `start_download` call, in the order the
guards appear in the source (lines 384–409). -/
inductive StartResult
  | warnEmptyUrl
  | errInvalidUrl
  | errNoFolder
  | warnAlreadyInProgress
  | started
deriving DecidableEq

/-- The method `start_download` (lines 382–409): the guard chain, then the state
mutation performed on the foreground thread just before the worker
thread is spawned.  `StartResult.started` is the only outcome that
spawns a worker; every other outcome shows a dialog and leaves the
state untouched. -/
def start_download (st : AppState) (url_input : String)
    (download_path_exists : Bool) : StartResult × AppState :=
  let url := strip url_input
  if url = "" then (StartResult.warnEmptyUrl, st)
  else if is_valid_youtube_url url = false then (StartResult.errInvalidUrl, st)
  else if download_path_exists = false then (StartResult.errNoFolder, st)
  else if st.is_downloading = true then (StartResult.warnAlreadyInProgress, st)
  else (StartResult.started, { st with is_downloading := true, progress := 0 })

/-- A callback posted to the foreground thread by the download worker. -/
inductive UiCall
  | updateProgress (percent : ℚ) (status : String)
  | downloadComplete (success : Bool) (message : String)

/-- Whether a posted callback is the completion callback. -/
def isCompleteCall : UiCall → Bool
  | UiCall.downloadComplete _ _ => true
  | UiCall.updateProgress _ _ => false

/-- Effect of one posted callback on the foreground state. -/
def applyUi (st : AppState) : UiCall → AppState
  | UiCall.updateProgress p s => _update_progress st p s
  | UiCall.downloadComplete suc msg => _download_complete st suc msg

/-- Foreground processing of a whole callback trace, in posting order. -/
def runUi (st : AppState) (calls : List UiCall) : AppState :=
  calls.foldl applyUi st

/-- The audio-only container formats (line 427 and line 473). -/
def audioFormats : List String := ["mp3", "m4a"]

/-- The format expression actually passed to the tool by
`_download_thread`: the user's selection, overridden to
`"bestaudio/best"` for an audio-only container (lines 426–428 and
473–474). -/
def effectiveFormat (quality fmt : String) : String :=
  if fmt ∈ audioFormats then "bestaudio/best" else _get_format_string quality fmt

/-- The extra yt-dlp arguments built by `_download_thread` (line 439):
audio extraction flags for an audio-only container, nothing otherwise. -/
def extraArgsFor (fmt : String) : List String :=
  if fmt ∈ audioFormats then ["--extract-audio", "--audio-format", fmt] else []

/-- The command line built by `_run_yt_dlp_download` (lines 61–76),
including the duplicated `--ffmpeg-location` after the URL that the
source contains. -/
def buildDownloadCmd (exe url outtmpl format_string : String)
    (ffmpeg_location : Option String) (extra_args : List String) : List String :=
  [exe] ++ extra_args ++ ["-f", format_string, "-o", outtmpl]
    ++ (match ffmpeg_location with | some d => ["--ffmpeg-location", d] | none => [])
    ++ ["--newline"] ++ [url]
    ++ (match ffmpeg_location with | some d => ["--ffmpeg-location", d] | none => [])

/-- The options dictionary handed to the Python-API fallback path of
`_download_thread` (lines 462–479); a postprocessor entry is
`(key, preferredcodec, preferredquality)`.  The progress hook, being a
function value, is not part of the data. -/
structure YdlOpts where
  format : String
  outtmpl : String
  ffmpeg_location : Option String
  postprocessors : List (String × String × String)
deriving DecidableEq

/-- Construction of the fallback options: the user's format expression,
overridden for an audio-only container to `"bestaudio/best"` plus an
`FFmpegExtractAudio` postprocessor naming the requested codec. -/
def buildYdlOpts (quality fmt outtmpl : String) (ffmpeg_dir : Option String) : YdlOpts :=
  let base : YdlOpts :=
    { format := _get_format_string quality fmt, outtmpl := outtmpl,
      ffmpeg_location := ffmpeg_dir, postprocessors := [] }
  if fmt ∈ audioFormats then
    { base with format := "bestaudio/best",
                postprocessors := [("FFmpegExtractAudio", fmt, "192")] }
  else base

/-- Everything outside this program that decides how one run of
`_download_thread` unfolds: whether a yt-dlp executable was located,
where ffmpeg was found, the user's selections, the output lines and the
exit code of the spawned process, and — on the executable-less fallback
path — whether the Python API call raised (`some` error text) or
returned. -/
structure DlEnv where
  ytExe : Option String
  ffmpegDir : Option String
  quality : String
  fmt : String
  procLines : List String
  procExit : Int
  pyApiError : Option String

/-- The completion report computed by `_download_thread` (lines 486–491):
success with a fixed message when no step raised, failure wrapping the
error text otherwise. -/
def workerCompletion (env : DlEnv) : Bool × String :=
  match env.ytExe with
  | some _ =>
    match (_run_yt_dlp_download env.procLines env.procExit).2 with
    | none => (true, "Download completed successfully!")
    | some e => (false, "Download failed: " ++ e)
  | none =>
    match env.pyApiError with
    | none => (true, "Download completed successfully!")
    | some e => (false, "Download failed: " ++ e)

/-- The full trace of callbacks one run of `_download_thread` posts to
the foreground thread: on the executable path, one progress callback
per output line (the worker's `progress_cb` forwards the parsed percent
unchanged, lines 430–437), and in every case exactly one final
completion callback. -/
def workerTrace (env : DlEnv) : List UiCall :=
  (match env.ytExe with
   | some _ =>
     (_run_yt_dlp_download env.procLines env.procExit).1.map fun e =>
       UiCall.updateProgress e.1 e.2
   | none => [])
  ++ [UiCall.downloadComplete (workerCompletion env).1 (workerCompletion env).2]

/-! ## Helper lemmas -/

theorem litRem_suffix {pat l r : List Char} (h : r ∈ litRem pat l) : r <:+ l := by
  unfold litRem at h
  by_cases hp : pat.isPrefixOf l
  · simp [hp] at h
    subst h
    exact List.drop_suffix _ _
  · simp [hp] at h

theorem plusSuffixes_suffix {p : Char → Bool} :
    ∀ (l r : List Char), r ∈ plusSuffixes p l → r <:+ l := by
  intro l
  induction l with
  | nil =>
    intro r h
    simp [plusSuffixes] at h
  | cons c t ih =>
    intro r h
    unfold plusSuffixes at h
    by_cases hc : p c
    · simp only [hc, if_true, List.mem_cons] at h
      rcases h with rfl | h
      · exact List.suffix_cons _ _
      · exact (ih r h).trans (List.suffix_cons c t)
    · simp [hc] at h

theorem flatMap_suffix_closed {f : List Char → List (List Char)}
    (hf : ∀ s r, r ∈ f s → r <:+ s) {R : List (List Char)} {l : List Char}
    (hR : ∀ r ∈ R, r <:+ l) : ∀ r ∈ R.flatMap f, r <:+ l := by
  intro r hr
  rcases List.mem_flatMap.1 hr with ⟨s, hs, hrs⟩
  exact (hf s r hrs).trans (hR s hs)

theorem schemeRem_suffix : ∀ (s r : List Char), r ∈ schemeRem s → r <:+ s := by
  intro s r hr
  unfold schemeRem at hr
  rcases List.mem_append.1 hr with h | h
  · rcases List.mem_append.1 h with h | h
    · exact litRem_suffix h
    · exact litRem_suffix h
  · simp at h
    subst h
    exact List.suffix_refl _

theorem wwwRem_suffix : ∀ (s r : List Char), r ∈ wwwRem s → r <:+ s := by
  intro s r hr
  unfold wwwRem at hr
  rcases List.mem_append.1 hr with h | h
  · exact litRem_suffix h
  · simp at h
    subst h
    exact List.suffix_refl _

theorem hostRem_suffix : ∀ (s r : List Char), r ∈ hostRem s → r <:+ s := by
  intro s r hr
  unfold hostRem at hr
  rcases List.mem_append.1 hr with h | h
  · rcases List.mem_append.1 h with h | h <;> exact litRem_suffix h
  · exact litRem_suffix h

theorem dotRem_suffix : ∀ (s r : List Char), r ∈ dotRem s → r <:+ s := by
  intro s r hr
  exact litRem_suffix hr

theorem tldRem_suffix : ∀ (s r : List Char), r ∈ tldRem s → r <:+ s := by
  intro s r hr
  unfold tldRem at hr
  rcases List.mem_append.1 hr with h | h <;> exact litRem_suffix h

theorem slashRem_suffix : ∀ (s r : List Char), r ∈ slashRem s → r <:+ s := by
  intro s r hr
  exact litRem_suffix hr

theorem posFormRem_suffix : ∀ (s r : List Char), r ∈ posFormRem s → r <:+ s := by
  intro s r hr
  unfold posFormRem at hr
  rcases List.mem_append.1 hr with h | h
  · rcases List.mem_append.1 h with h | h
    · rcases List.mem_append.1 h with h | h
      · rcases List.mem_append.1 h with h | h <;> exact litRem_suffix h
      · exact litRem_suffix h
    · rcases List.mem_flatMap.1 h with ⟨u, hu, hru⟩
      exact (litRem_suffix hru).trans (plusSuffixes_suffix s u hu)
  · simp at h
    subst h
    exact List.suffix_refl _

theorem ytCandidates_suffix (l : List Char) : ∀ r ∈ ytCandidates l, r <:+ l := by
  unfold ytCandidates
  apply flatMap_suffix_closed posFormRem_suffix
  apply flatMap_suffix_closed slashRem_suffix
  apply flatMap_suffix_closed tldRem_suffix
  apply flatMap_suffix_closed dotRem_suffix
  apply flatMap_suffix_closed hostRem_suffix
  apply flatMap_suffix_closed wwwRem_suffix
  exact schemeRem_suffix l

theorem repMatch_take {p : Char → Bool} :
    ∀ (n : Nat) (l : List Char), (repMatch p n l).isSome = true →
      (l.take n).length = n ∧ (l.take n).all p = true := by
  intro n
  induction n with
  | zero =>
    intro l _
    simp
  | succ m ih =>
    intro l h
    cases l with
    | nil => simp [repMatch] at h
    | cons c t =>
      unfold repMatch at h
      by_cases hc : p c
      · rcases ih t (by simpa [hc] using h) with ⟨h1, h2⟩
        refine ⟨by simpa using h1, ?_⟩
        simp [List.all_cons, hc, h2]
      · simp [hc] at h

theorem startsWithIdRun_of_repMatch {t : List Char}
    (h : (repMatch idChar 11 t).isSome = true) : startsWithIdRun t = true := by
  rcases repMatch_take 11 t h with ⟨h1, h2⟩
  simp [startsWithIdRun, h1, h2]

theorem containsIdRun_append (u t : List Char) (h : startsWithIdRun t = true) :
    containsIdRun (u ++ t) = true := by
  induction u with
  | nil =>
    cases t with
    | nil => simp [startsWithIdRun] at h
    | cons c r => simp [containsIdRun, h]
  | cons a u' ih =>
    simp [containsIdRun, ih]

theorem valid_implies_containsIdRun (s : String)
    (h : is_valid_youtube_url s = true) : containsIdRun s.data = true := by
  unfold is_valid_youtube_url at h
  rcases List.any_eq_true.1 h with ⟨r, hr, hsome⟩
  have hsuf : r <:+ s.data := ytCandidates_suffix s.data r hr
  rcases hsuf with ⟨u, hu⟩
  rw [← hu]
  exact containsIdRun_append u r (startsWithIdRun_of_repMatch (by simpa using hsome))

theorem charVal_le {c : Char} (h : isDigitChar c = true) : charVal c ≤ 9 := by
  simp [isDigitChar] at h
  unfold charVal
  omega

theorem digitsVal_lt {ds : List Char} (h : ds.all isDigitChar = true) :
    digitsVal ds < 10 ^ ds.length := by
  induction ds with
  | nil => simp [digitsVal]
  | cons c r ih =>
    rw [List.all_cons, Bool.and_eq_true] at h
    have hc : charVal c ≤ 9 := charVal_le h.1
    have hr : digitsVal r < 10 ^ r.length := ih h.2
    unfold digitsVal
    have hm : charVal c * 10 ^ r.length ≤ 9 * 10 ^ r.length :=
      Nat.mul_le_mul_right _ hc
    calc charVal c * 10 ^ r.length + digitsVal r
        ≤ 9 * 10 ^ r.length + digitsVal r := by omega
      _ < 9 * 10 ^ r.length + 10 ^ r.length := by omega
      _ = 10 ^ (r.length + 1) := by ring
      _ = 10 ^ (c :: r).length := by simp

theorem digitsVal_le_of_take {k : Nat} (hk : k ≤ 3) {l : List Char}
    (hg : (l.take k).length = k ∧ (l.take k).all isDigitChar = true) :
    digitsVal (l.take k) ≤ 999 := by
  have h1 : digitsVal (l.take k) < 10 ^ k := by
    have h0 := digitsVal_lt hg.2
    rwa [hg.1] at h0
  have h2 : (10 : Nat) ^ k ≤ 1000 := by
    calc (10 : Nat) ^ k ≤ 10 ^ 3 := Nat.pow_le_pow_right (by omega) hk
      _ = 1000 := by norm_num
  omega

theorem tryDec_bound {k : Nat} (hk : k ≤ 3) {l : List Char} {v : ℚ}
    (h : tryDec k l = some v) : 0 ≤ v ∧ v ≤ 9999 / 10 := by
  unfold tryDec at h
  by_cases hg : (l.take k).length = k ∧ (l.take k).all isDigitChar = true
  · rw [if_pos hg] at h
    split at h
    · rename_i c1 d c2 tail heq
      split at h
      · rename_i hcond
        obtain ⟨-, hdig, -⟩ := hcond
        have hnum : digitsVal (l.take k) * 10 + charVal d ≤ 9999 := by
          have h3 := charVal_le hdig
          have h4 := digitsVal_le_of_take hk hg
          omega
        have hv := (Option.some_inj.1 h).symm
        subst hv
        rw [Rat.mkRat_eq_div]
        constructor
        · positivity
        · rw [div_le_div_iff₀ (by norm_num) (by norm_num)]
          have hcast : ((digitsVal (l.take k) : ℚ) * 10 + (charVal d : ℚ)) ≤ 9999 := by
            exact_mod_cast hnum
          push_cast
          linarith
      · exact absurd h (by simp)
    · exact absurd h (by simp)
  · rw [if_neg hg] at h
    exact absurd h (by simp)

theorem tryInt_bound {k : Nat} (hk : k ≤ 3) {l : List Char} {v : ℚ}
    (h : tryInt k l = some v) : 0 ≤ v ∧ v ≤ 9999 / 10 := by
  unfold tryInt at h
  by_cases hg : (l.take k).length = k ∧ (l.take k).all isDigitChar = true
  · rw [if_pos hg] at h
    split at h
    · split at h
      · have hnum : digitsVal (l.take k) ≤ 999 := digitsVal_le_of_take hk hg
        have hv := (Option.some_inj.1 h).symm
        subst hv
        constructor
        · positivity
        · rw [le_div_iff₀ (by norm_num)]
          have hcast : ((digitsVal (l.take k) : ℚ)) ≤ 999 := by exact_mod_cast hnum
          linarith
      · exact absurd h (by simp)
    · exact absurd h (by simp)
  · rw [if_neg hg] at h
    exact absurd h (by simp)

theorem decAt_bound {l : List Char} {v : ℚ} (h : decAt l = some v) :
    0 ≤ v ∧ v ≤ 9999 / 10 := by
  unfold decAt at h
  rcases h3 : tryDec 3 l with _ | v3 <;> rw [h3] at h
  · rcases h2 : tryDec 2 l with _ | v2 <;> rw [h2] at h
    · exact tryDec_bound (by omega) h
    · simp at h
      subst h
      exact tryDec_bound (by omega) h2
  · simp at h
    subst h
    exact tryDec_bound (by omega) h3

theorem intAt_bound {l : List Char} {v : ℚ} (h : intAt l = some v) :
    0 ≤ v ∧ v ≤ 9999 / 10 := by
  unfold intAt at h
  rcases h3 : tryInt 3 l with _ | v3 <;> rw [h3] at h
  · rcases h2 : tryInt 2 l with _ | v2 <;> rw [h2] at h
    · exact tryInt_bound (by omega) h
    · simp at h
      subst h
      exact tryInt_bound (by omega) h2
  · simp at h
    subst h
    exact tryInt_bound (by omega) h3

theorem searchDec_bound : ∀ {l : List Char} {v : ℚ}, searchDec l = some v →
    0 ≤ v ∧ v ≤ 9999 / 10 := by
  intro l
  induction l with
  | nil =>
    intro v h
    simp [searchDec] at h
  | cons c t ih =>
    intro v h
    unfold searchDec at h
    rcases hd : decAt (c :: t) with _ | w <;> rw [hd] at h
    · exact ih h
    · simp at h
      subst h
      exact decAt_bound hd

theorem searchInt_bound : ∀ {l : List Char} {v : ℚ}, searchInt l = some v →
    0 ≤ v ∧ v ≤ 9999 / 10 := by
  intro l
  induction l with
  | nil =>
    intro v h
    simp [searchInt] at h
  | cons c t ih =>
    intro v h
    unfold searchInt at h
    rcases hd : intAt (c :: t) with _ | w <;> rw [hd] at h
    · exact ih h
    · simp at h
      subst h
      exact intAt_bound hd

theorem parsePercent_bound {l : List Char} {v : ℚ} (h : parsePercent l = some v) :
    0 ≤ v ∧ v ≤ 9999 / 10 := by
  unfold parsePercent at h
  rcases hd : searchDec l with _ | w <;> rw [hd] at h
  · exact searchInt_bound h
  · simp at h
    subst h
    exact searchDec_bound hd

theorem countP_map_progress (l : List (ℚ × String)) :
    ((l.map fun e => UiCall.updateProgress e.1 e.2).countP isCompleteCall) = 0 := by
  induction l with
  | nil => rfl
  | cons a t ih => simp [List.countP_cons, isCompleteCall, ih]

theorem download_complete_flag (st : AppState) (suc : Bool) (msg : String) :
    (_download_complete st suc msg).is_downloading = false := by
  cases suc <;> rfl

theorem runUi_append (st : AppState) (a b : List UiCall) :
    runUi st (a ++ b) = runUi (runUi st a) b := by
  simp [runUi, List.foldl_append]

/-! ## Claims -/

/-- C1: every run of the download worker spawned by a start request that
passed the guards posts exactly one completion callback; after the trace
is processed the single-flight flag is back to `false` (Idle), whatever
the environment did; on the executable path the completion reports
success iff the external process exited with code 0; and every failure
report carries a human-readable `Download failed:` message. -/
theorem C1_worker_single_completion_idle (env : DlEnv) (st st2 : AppState)
    (url : String) (pe : Bool)
    (hstart : start_download st url pe = (StartResult.started, st2)) :
    (workerTrace env).countP isCompleteCall = 1
    ∧ (runUi st2 (workerTrace env)).is_downloading = false
    ∧ (env.ytExe.isSome = true → ((workerCompletion env).1 = true ↔ env.procExit = 0))
    ∧ ((workerCompletion env).1 = false →
        ∃ e, (workerCompletion env).2 = "Download failed: " ++ e) := by
  refine ⟨?_, ?_, ?_, ?_⟩
  · unfold workerTrace
    rw [List.countP_append]
    cases henv : env.ytExe with
    | some e => simp [countP_map_progress, List.countP_cons, isCompleteCall]
    | none => simp [List.countP_cons, isCompleteCall]
  · unfold workerTrace
    rw [runUi_append]
    simp only [runUi, List.foldl_cons, List.foldl_nil, applyUi]
    exact download_complete_flag _ _ _
  · intro hsome
    cases henv : env.ytExe with
    | none =>
      rw [henv] at hsome
      simp at hsome
    | some e =>
      unfold workerCompletion _run_yt_dlp_download
      rw [henv]
      by_cases hrc : env.procExit = 0 <;> simp [hrc]
  · intro hfail
    cases henv : env.ytExe with
    | some e =>
      unfold workerCompletion _run_yt_dlp_download at hfail ⊢
      rw [henv] at hfail ⊢
      by_cases hrc : env.procExit = 0
      · simp [hrc] at hfail
      · simp [hrc]
    | none =>
      unfold workerCompletion at hfail ⊢
      rw [henv] at hfail ⊢
      cases hpy : env.pyApiError with
      | none => simp [hpy] at hfail
      | some e2 =>
        simp only [hpy]
        exact ⟨e2, rfl⟩

/-- Witness for C1: a concrete run — a start request that passes the
guards, an executable found, the process exiting with code 1 — yields a
failure completion wrapping the runner's error text. -/
theorem C1_worker_single_completion_idle_witness :
    ∃ e, (workerCompletion ⟨some "yt-dlp", none, "best", "mp4", ["line"], 1, none⟩).2
      = "Download failed: " ++ e := by
  have h := C1_worker_single_completion_idle
    ⟨some "yt-dlp", none, "best", "mp4", ["line"], 1, none⟩
    ⟨false, 0, "Ready to download"⟩ ⟨true, 0, "Ready to download"⟩
    "https://www.youtube.com/watch?v=dQw4w9WgXcQ" true (by rfl)
  exact h.2.2.2 (by rfl)

/-- C2 (amended): a start request arriving while the state is Running is
rejected with `AlreadyInProgress`, with the in-flight state (including
the progress value) unchanged and no worker spawned — provided the
request passes the input guards that precede the single-flight check (a
non-empty valid URL and an existing destination directory).  A request
failing those guards while Running is still rejected with the state
unchanged, but carries the input-guard report instead (see the
counterexample). -/
theorem C2_single_flight_amended (st : AppState) (url : String) (pathExists : Bool)
    (hrun : st.is_downloading = true)
    (hvalid : is_valid_youtube_url (strip url) = true)
    (hpath : pathExists = true) :
    start_download st url pathExists = (StartResult.warnAlreadyInProgress, st) := by
  have hne : ¬ (strip url = "") := by
    intro h0
    rw [h0] at hvalid
    exact absurd hvalid (by decide)
  unfold start_download
  simp [hne, hvalid, hpath, hrun]

/-- Witness for C2: a concrete second start request with a valid URL and
an existing destination, arriving while Running, is rejected with
`AlreadyInProgress` and the state is returned unchanged. -/
theorem C2_single_flight_amended_witness :
    start_download ⟨true, 42, "Downloading..."⟩
        "https://www.youtube.com/watch?v=dQw4w9WgXcQ" true
      = (StartResult.warnAlreadyInProgress, ⟨true, 42, "Downloading..."⟩) :=
  C2_single_flight_amended ⟨true, 42, "Downloading..."⟩
    "https://www.youtube.com/watch?v=dQw4w9WgXcQ" true rfl (by rfl) rfl

/-- Counterexample to C2 as stated: a start request with an empty URL
arriving while the state is Running is rejected by the earlier
empty-URL guard, not with an `AlreadyInProgress` report — the URL and
destination guards run before the single-flight check. -/
theorem C2_single_flight_counterexample :
    (start_download ⟨true, 50, "Downloading..."⟩ "" true).1 = StartResult.warnEmptyUrl
    ∧ StartResult.warnEmptyUrl ≠ StartResult.warnAlreadyInProgress := by
  constructor
  · rfl
  · decide

/-- C3: for every container of the offered set, quality `best` yields
the best-of-container expression with a best-overall fallback, quality
`worst` the symmetric worst expression, and every offered resolution
token `Np` is stripped of its trailing `p` and yields the three-tier
height-capped chain; in particular the two quoted instances hold. -/
theorem C3_format_expressions :
    (∀ c ∈ containerFormats,
      _get_format_string "best" c = "best[ext=" ++ c ++ "]/best"
      ∧ _get_format_string "worst" c = "worst[ext=" ++ c ++ "]/worst"
      ∧ ∀ n ∈ resolutionHeights,
          _get_format_string (toString n ++ "p") c =
            "best[height<=" ++ toString n ++ "][ext=" ++ c ++ "]/best[height<="
              ++ toString n ++ "]/best")
    ∧ _get_format_string "best" "mp4" = "best[ext=mp4]/best"
    ∧ _get_format_string "720p" "webm" = "best[height<=720][ext=webm]/best[height<=720]/best" := by
  decide

/-- Witness for C3: the general clause applied to the container `mkv`
and the resolution 480. -/
theorem C3_format_expressions_witness :
    _get_format_string "480p" "mkv"
      = "best[height<=480][ext=mkv]/best[height<=480]/best" :=
  ((C3_format_expressions.1 "mkv" (by decide)).2.2) 480 (by decide)

/-- C4: for an audio-only container (mp3 or m4a) and any quality, the
format expression actually passed to the tool is overridden to
`bestaudio/best`; the audio-extraction instruction is passed as the
distinct arguments `--extract-audio --audio-format <codec>` placed
apart from the `-f` format expression in the command line; and the
Python-API fallback path likewise overrides the format and adds a
distinct `FFmpegExtractAudio` postprocessor entry naming the codec. -/
theorem C4_audio_override (quality fmt exe url outtmpl : String)
    (ffdir : Option String) (h : fmt ∈ audioFormats) :
    effectiveFormat quality fmt = "bestaudio/best"
    ∧ extraArgsFor fmt = ["--extract-audio", "--audio-format", fmt]
    ∧ (∃ pre post,
        buildDownloadCmd exe url outtmpl (effectiveFormat quality fmt) ffdir (extraArgsFor fmt)
          = pre ++ ("--extract-audio" :: "--audio-format" :: fmt
              :: "-f" :: "bestaudio/best" :: post))
    ∧ (buildYdlOpts quality fmt outtmpl ffdir).format = "bestaudio/best"
    ∧ (buildYdlOpts quality fmt outtmpl ffdir).postprocessors
        = [("FFmpegExtractAudio", fmt, "192")] := by
  refine ⟨by simp [effectiveFormat, h], by simp [extraArgsFor, h], ?_,
    by simp [buildYdlOpts, h], by simp [buildYdlOpts, h]⟩
  refine ⟨[exe], "-o" :: outtmpl ::
    ((match ffdir with | some d => ["--ffmpeg-location", d] | none => [])
      ++ "--newline" :: url ::
      (match ffdir with | some d => ["--ffmpeg-location", d] | none => [])), ?_⟩
  simp [buildDownloadCmd, effectiveFormat, extraArgsFor, h]

/-- Witness for C4: the audio override at a concrete selection,
`quality = 720p` and container `m4a`. -/
theorem C4_audio_override_witness :
    effectiveFormat "720p" "m4a" = "bestaudio/best" :=
  (C4_audio_override "720p" "m4a" "yt-dlp" "u" "o" none (by decide)).1

/-- C5: the parser produces exactly one callback per output line, in
line order (the event trace is the per-line map over the lines read);
`"12.3% of 10MiB"` yields percent 12.3 while the integer pattern alone
would have found 3 — so the decimal-point pattern is tried first — and
a line with no percentage yields the unknown sentinel. -/
theorem C5_progress_line_parsing :
    (∀ lines : List String, runnerEvents lines = lines.map lineEvent)
    ∧ (∀ lines : List String, (runnerEvents lines).length = lines.length)
    ∧ lineEvent "12.3% of 10MiB" = (123/10, "12.3% of 10MiB")
    ∧ searchInt (strip "12.3% of 10MiB").data = some 3
    ∧ lineEvent "Downloading..." = (-1, "Downloading...")
    ∧ runnerEvents ["12.3% of 10MiB", "Downloading..."]
        = [(123/10, "12.3% of 10MiB"), (-1, "Downloading...")] := by
  have hq : ((123:ℚ)/10) = mkRat 123 10 := by
    rw [Rat.mkRat_eq_div]
    norm_num
  have hmap : ∀ lines : List String, runnerEvents lines = lines.map lineEvent := by
    intro lines
    induction lines with
    | nil => rfl
    | cons l ls ih => simp [runnerEvents, ih]
  refine ⟨hmap, ?_, ?_, ?_, ?_, ?_⟩
  · intro lines
    rw [hmap]
    simp
  · rw [hq]
    rfl
  · rfl
  · rfl
  · rw [hq]
    rfl

/-- C6 (amended): the download runner waits for the process and raises
iff the exit code is non-zero; but the raised error carries the exit
code (`yt-dlp exited with N`), not the captured output of the process —
the output is consumed line by line for progress and is absent from the
error (see the counterexample). -/
theorem C6_runner_error_amended (outLines : List String) (returncode : Int) :
    ((_run_yt_dlp_download outLines returncode).2 = none ↔ returncode = 0)
    ∧ (∀ msg, (_run_yt_dlp_download outLines returncode).2 = some msg →
        msg = "yt-dlp exited with " ++ toString returncode) := by
  unfold _run_yt_dlp_download
  by_cases h : returncode = 0 <;> simp [h]

/-- Witness for C6: at exit code 0 the runner raises nothing, and at
exit code 2 the raised message is the exit-code message. -/
theorem C6_runner_error_amended_witness :
    (_run_yt_dlp_download ["some output"] 0).2 = none
    ∧ "yt-dlp exited with 2" = "yt-dlp exited with " ++ toString (2 : Int) :=
  ⟨(C6_runner_error_amended ["some output"] 0).1.mpr rfl,
   (C6_runner_error_amended [] 2).2 "yt-dlp exited with 2" (by rfl)⟩

/-- Counterexample to C6 as stated: the error raised on a non-zero exit
is identical whether the process produced diagnostic output or none at
all, so it cannot carry the captured output; it is the fixed exit-code
message. -/
theorem C6_runner_error_counterexample :
    (_run_yt_dlp_download ["ERROR: network failure"] 1).2 = (_run_yt_dlp_download [] 1).2
    ∧ (_run_yt_dlp_download ["ERROR: network failure"] 1).2 = some "yt-dlp exited with 1" := by
  constructor
  · rfl
  · rfl

/-- C7: a string containing no eleven-character run drawn from the
identifier alphabet `[^&=%\?]` is rejected by `is_valid_youtube_url`
(the pattern must end by consuming such a run), and in particular the
empty string is rejected. -/
theorem C7_reject_without_id_token :
    (∀ s : String, containsIdRun s.data = false → is_valid_youtube_url s = false)
    ∧ is_valid_youtube_url "" = false := by
  refine ⟨?_, rfl⟩
  intro s h
  by_contra hv
  rw [Bool.not_eq_false] at hv
  rw [valid_implies_containsIdRun s hv] at h
  exact absurd h (by simp)

/-- Witness for C7: `"hi there"` contains no eleven-character identifier
run, and the validator rejects it. -/
theorem C7_reject_without_id_token_witness :
    containsIdRun ("hi there").data = false ∧ is_valid_youtube_url "hi there" = false :=
  ⟨by decide, C7_reject_without_id_token.1 "hi there" (by decide)⟩

/-- C8 (amended): for every positive view count the formatter follows
the claimed thresholds — millions to one decimal place with `M views`,
thousands to one decimal place with `K views`, the literal count with
` views` below one thousand — and the three quoted examples hold; a
view count of zero, however, is caught by the truthiness guard and
formatted as `Unknown views`, not `0 views` (see the counterexample). -/
theorem C8_view_count_amended :
    (∀ n : Nat, 1000000 ≤ n → formatViewCount n = oneDecimal n 1000000 ++ "M views")
    ∧ (∀ n : Nat, 1000 ≤ n → n < 1000000 → formatViewCount n = oneDecimal n 1000 ++ "K views")
    ∧ (∀ n : Nat, 0 < n → n < 1000 → formatViewCount n = toString n ++ " views")
    ∧ formatViewCount 500 = "500 views"
    ∧ formatViewCount 1500 = "1.5K views"
    ∧ formatViewCount 2300000 = "2.3M views" := by
  refine ⟨?_, ?_, ?_, by decide, by decide, by decide⟩
  · intro n h
    have h0 : n ≠ 0 := by omega
    simp [formatViewCount, h, h0]
  · intro n h h1
    have h0 : n ≠ 0 := by omega
    have h2 : ¬ 1000000 ≤ n := by omega
    simp [formatViewCount, h, h0, h2]
  · intro n h h1
    have h0 : n ≠ 0 := by omega
    have h2 : ¬ 1000000 ≤ n := by omega
    have h3 : ¬ 1000 ≤ n := by omega
    simp [formatViewCount, h0, h2, h3]

/-- Witness for C8: the thousands clause applied at 1500 views. -/
theorem C8_view_count_amended_witness :
    formatViewCount 1500 = oneDecimal 1500 1000 ++ "K views" :=
  C8_view_count_amended.2.1 1500 (by decide) (by decide)

/-- Counterexample to C8 as stated: the claim covers every non-negative
count and predicts `"0 views"` at zero, but the code's truthiness guard
formats zero as `"Unknown views"`. -/
theorem C8_view_count_counterexample :
    formatViewCount 0 = "Unknown views" ∧ formatViewCount 0 ≠ "0 views" := by
  constructor
  · rfl
  · decide

/-- C9 (amended): every progress event forwarded by the parser carries
either the unknown sentinel (-1) or a parsed percent lying in the
closed interval [0, 999.9] — never negative, but the `\d{1,3}` patterns
admit values above 100, so the claimed upper bound of 100 is wrong (see
the counterexample). -/
theorem C9_percent_range_amended (line : String) :
    (lineEvent line).1 = -1
    ∨ (0 ≤ (lineEvent line).1 ∧ (lineEvent line).1 ≤ 9999 / 10) := by
  unfold lineEvent
  rcases hp : parsePercent (strip line).data with _ | v <;> simp [hp]
  exact Or.inr (parsePercent_bound hp)

/-- Counterexample to C9 as stated: the output line `"200.0% of 10MiB"`
is parsed to percent 200 and forwarded, which is outside [0, 100]. -/
theorem C9_percent_range_counterexample :
    lineEvent "200.0% of 10MiB" = (200, "200.0% of 10MiB") ∧ ¬ ((200 : ℚ) ≤ 100) := by
  constructor
  · rw [show ((200:ℚ)) = mkRat 2000 10 by rw [Rat.mkRat_eq_div]; norm_num]
    rfl
  · norm_num

/-- C10: the validator matches only a prefix and its positional-form
group is optional, so it accepts a host followed directly by eleven
identifier characters and a recognized URL followed by arbitrary
trailing text. -/
theorem C10_validator_overmatch :
    is_valid_youtube_url "youtube.com/abcdefghijk" = true
    ∧ is_valid_youtube_url "https://www.youtube.com/watch?v=dQw4w9WgXcQ this is not a url" = true :=
  ⟨rfl, rfl⟩

end YoutubeDownloader
